import Mathlib

/-!
Formal model of the OCR processing/caching pipeline and search engine of the
pdf-text-search repository (src/ocr/pdf_processor.py), together with theorems
checking the specification's claims against that model.

Conventions of the shallow embedding:
* Python strings are `String` and character offsets are `Nat` over `String.data`
  (one entry per code point, as in Python).
* Python `float` coordinates are `Rat`; the arithmetic performed by the source
  (min/max and division by 2) is exact on the inputs it receives.
* Python `dict`s are association lists with unique keys; `dictLookup` models
  `d[k]` / `d.get(k)`.  Dict keys in this program are Python `int`s or `str`s,
  modelled by `PyKey`.
* Fallible steps (rasterisation, OCR, JSON parsing) enter the model as
  `Except`/`Option` values describing the outcome of the external call.
-/

set_option maxRecDepth 10000

namespace PdfSearch

/-! ### Data model -/

/-- Axis-aligned bounding box `(x0, y0, x1, y1)` in page-coordinate units. -/
abbrev Box : Type := Rat × Rat × Rat × Rat

/-- A Python dict key as used by this program: an `int` or a `str`.
`word_locations` is keyed by `int` page numbers when built fresh by
`process_pages`, and by `str` keys after a round trip through JSON. -/
inductive PyKey where
  | pint : Int → PyKey
  | pstr : String → PyKey
deriving DecidableEq, Repr

/-- Per-page map from word ordinal to bounding box (`page_locations`). -/
abbrev PageLocations : Type := List (PyKey × Box)

/-- The `self.word_locations` dict: page number → per-page word-location map. -/
abbrev WordLocations : Type := List (PyKey × PageLocations)

instance : DecidableEq PageLocations := inferInstance

instance : DecidableEq (PyKey × PageLocations) := inferInstance

instance : DecidableEq WordLocations := inferInstance

/-- Python dict lookup (`d.get(k)` without default), modelled on an
association list with unique keys. -/
def dictLookup [DecidableEq κ] (k : κ) : List (κ × α) → Option α
  | [] => none
  | (k2, v) :: rest => if k = k2 then some v else dictLookup k rest

/-- The `SearchResult` dataclass of the source. -/
structure SearchResult where
  page : Nat
  context : String
  position : Nat
  bbox : Box
deriving DecidableEq, Repr

/-- The processor state read by `search_text`: `self.page_texts` and
`self.word_locations`. -/
structure DocState where
  page_texts : List String
  word_locations : WordLocations
deriving DecidableEq, Repr

/-! ### Search engine (`PDFProcessor.search_text`) -/

/-- Case-insensitive literal match of `kw` at the head of `s`.  This models one
candidate position of `re.finditer(re.escape(keyword), text, re.IGNORECASE)`:
`re.escape` makes the keyword literal, and `re.IGNORECASE` compares the two
sides case-folded (ASCII case folding, which agrees with Python on the inputs
considered here). -/
def isMatch (kw s : List Char) : Bool :=
  decide (kw.length ≤ s.length) && ((s.take kw.length).map Char.toLower == kw.map Char.toLower)

/-- Offsets yielded by `re.finditer(re.escape(kw), text, re.IGNORECASE)` for the
suffix `s` of the page text starting at absolute offset `i`: leftmost first and
non-overlapping (after a match of width `w ≥ 1` the scan resumes `w` characters
later, tracked by the `skip` argument), and a zero-width match (empty keyword)
advances the scan by one, matching once more at the very end of the text. -/
def scanAux (kw : List Char) : List Char → Nat → Nat → List Nat
  | [], i, _ => if kw.isEmpty then [i] else []
  | _ :: rest, i, skip + 1 => scanAux kw rest (i + 1) skip
  | c :: rest, i, 0 =>
    if isMatch kw (c :: rest) then
      if kw.isEmpty then i :: scanAux kw rest (i + 1) 0
      else i :: scanAux kw rest (i + 1) (kw.length - 1)
    else scanAux kw rest (i + 1) 0

/-- All match-start offsets of the keyword in a page text, in scan order. -/
def findMatches (kw text : String) : List Nat := scanAux kw.data text.data 0 0

/-- Models `re.sub('(' + re.escape(keyword) + ')', r'**\1**', context,
flags=re.IGNORECASE)`: every non-overlapping case-insensitive occurrence of the
keyword in the context window is wrapped in `**` markers, keeping the original
case of the matched characters; an empty keyword inserts `****` at every
position including the end, as Python does. -/
def emphAux (kw : List Char) : List Char → Nat → List Char
  | [], _ => if kw.isEmpty then ['*', '*', '*', '*'] else []
  | _ :: rest, skip + 1 => emphAux kw rest skip
  | c :: rest, 0 =>
    if isMatch kw (c :: rest) then
      if kw.isEmpty then '*' :: '*' :: '*' :: '*' :: c :: emphAux kw rest 0
      else '*' :: '*' :: ((c :: rest).take kw.length ++ '*' :: '*' :: emphAux kw rest (kw.length - 1))
    else c :: emphAux kw rest 0

/-- Number of whitespace-delimited tokens of a character list, i.e.
`len(s.split())` in Python (runs of whitespace separate tokens; leading and
trailing whitespace contribute nothing). -/
def countTokensAux : Bool → Nat → List Char → Nat
  | _, n, [] => n
  | inTok, n, c :: rest =>
    if c.isWhitespace then countTokensAux false n rest
    else if inTok then countTokensAux true n rest
    else countTokensAux true (n + 1) rest

/-- Python `len(s.split())`. -/
def countTokens (s : List Char) : Nat := countTokensAux false 0 s

/-- The context string built for a match at offset `s`:
`start = max(0, s - 50)` (natural subtraction clamps at 0 exactly like the
source's `max(0, match.start() - 50)`), `stop = min(len(text), s + len(kw) + 50)`
(`match.end() = s + len(kw)` for a literal pattern), the page text is sliced to
`[start, stop)`, every keyword occurrence in the slice is emphasised, and the
result is framed by `...` on both sides (the source's `f"...{context}..."`). -/
def mkContext (kw t : String) (s : Nat) : String :=
  let start := s - 50
  let stop := min t.length (s + kw.length + 50)
  "..." ++ String.mk (emphAux kw.data ((t.data.take stop).drop start) 0) ++ "..."

/-- Models `self.word_locations.get(page_num - 1, {}).get(word_index, (0, 0, 0, 0))`. -/
def lookupBbox (wl : WordLocations) (p w : Int) : Box :=
  (dictLookup (PyKey.pint w) ((dictLookup (PyKey.pint p) wl).getD [])).getD (0, 0, 0, 0)

/-- One `SearchResult` as appended by the loop body of `search_text` for a match
at offset `s` on page `pageNum` (1-based) with text `t`. -/
def mkResult (kw : String) (wl : WordLocations) (pageNum : Nat) (t : String) (s : Nat) :
    SearchResult :=
  { page := pageNum
    context := mkContext kw t s
    position := s
    bbox := lookupBbox wl (Int.ofNat (pageNum - 1)) (Int.ofNat (countTokens (t.data.take s))) }

/-- All results contributed by one page. -/
def searchPage (kw : String) (wl : WordLocations) (pageNum : Nat) (t : String) :
    List SearchResult :=
  (findMatches kw t).map (mkResult kw wl pageNum t)

/-- Models `PDFProcessor.search_text`: iterates `enumerate(self.page_texts, 1)` and
collects the per-page results in order. -/
def search_text (st : DocState) (kw : String) : List SearchResult :=
  ((List.enumFrom 1 st.page_texts).map (fun p => searchPage kw st.word_locations p.1 p.2)).flatten

/-! ### Page processor (`PDFProcessor.process_pages`) -/

/-- A point of an OCR token quadrilateral, in rasterised-bitmap coordinates. -/
abbrev Point : Type := Rat × Rat

/-- The four-point quadrilateral `word_info[0]`, per the OCR capability
interface: `[[x0, y0], [x1, y1], [x2, y2], [x3, y3]]`. -/
structure Quad where
  p1 : Point
  p2 : Point
  p3 : Point
  p4 : Point
deriving DecidableEq, Repr

/-- One OCR token: `word_info`, with `word_info[0]` the quadrilateral and
`word_info[1] = (text, confidence)`. -/
structure WordInfo where
  quad : Quad
  text : String
  conf : Rat
deriving DecidableEq, Repr

/-- One OCR line: a sequence of tokens. -/
abbrev Line : Type := List WordInfo

/-- The value returned by `self.ocr.ocr(...)` for one page: either `None`
(falsy, skipped by `if result:`) or a list of lines. -/
abbrev OcrResult : Type := Option (List Line)

/-- The outcome of the fallible per-page steps (rasterisation, PNG decode, the
OCR call): an exception message or an OCR result. -/
abbrev PageOutcome : Type := Except String OcrResult

/-- The notifications emitted through the Qt signals `progress_updated`
(current, total) and `status_updated` (message). -/
inductive Event where
  | progress : Nat → Nat → Event
  | status : String → Event
deriving DecidableEq, Repr

/-- The processor state mutated by `process_pages`, together with the emitted
notifications in order. -/
structure ProcState where
  page_texts : List String
  word_locations : WordLocations
  events : List Event
deriving Repr

/-- The axis-aligned box of a token: min/max of the quadrilateral coordinates,
each divided by 2 to undo the `fitz.Matrix(2, 2)` rasterisation magnification. -/
def quadBox (q : Quad) : Box :=
  (min (min q.p1.1 q.p2.1) (min q.p3.1 q.p4.1) / 2,
   min (min q.p1.2 q.p2.2) (min q.p3.2 q.p4.2) / 2,
   max (max q.p1.1 q.p2.1) (max q.p3.1 q.p4.1) / 2,
   max (max q.p1.2 q.p2.2) (max q.p3.2 q.p4.2) / 2)

/-- The tokens visited by `for line in result: for word_info in line:`; the
`if result:` guard makes a `None` result contribute nothing. -/
def pageWords (r : OcrResult) : List WordInfo :=
  match r with
  | none => []
  | some lines => lines.flatten

/-- The body of the per-page `try` block after a successful OCR call: append
`' '.join(page_text)` to `page_texts`, store the per-page locations dict keyed
by the token ordinal, and emit `progress_updated(page_num + 1, total_pages)`. -/
def stepPage (total pageNum : Nat) (outcome : PageOutcome) (st : ProcState) : ProcState :=
  match outcome with
  | Except.error e =>
    { st with
      events := st.events ++ [Event.status ("Error processing page " ++ toString (pageNum + 1) ++ ": " ++ e)] }
  | Except.ok r =>
    let ws := pageWords r
    { page_texts := st.page_texts ++ [String.intercalate " " (ws.map (fun w => w.text))]
      word_locations := st.word_locations ++
        [(PyKey.pint (Int.ofNat pageNum), ws.enum.map (fun iw => (PyKey.pint (Int.ofNat iw.1), quadBox iw.2.quad)))]
      events := st.events ++ [Event.progress (pageNum + 1) total] }

/-- The loop `for page_num in range(total_pages):` of `process_pages`, with the
`except` clause downgrading a page failure to a status message and `continue`. -/
def processPagesFrom (total : Nat) : Nat → List PageOutcome → ProcState → ProcState
  | _, [], st => st
  | pageNum, outcome :: rest, st =>
    processPagesFrom total (pageNum + 1) rest (stepPage total pageNum outcome st)

/-- Models `PDFProcessor.process_pages` on a document whose per-page step outcomes are
`pages`: resets `page_texts` and `word_locations`, then runs the page loop. -/
def processPages (pages : List PageOutcome) : ProcState :=
  processPagesFrom pages.length 0 pages { page_texts := [], word_locations := [], events := [] }

/-! ### Cache store (`get_cache_path`, the JSON payload, `load_pdf`) -/

/-- Models the fingerprint of `get_cache_path`: `str(hash(pdf_path + str(mtime)))`.
Python's builtin string hash is salted per process (hash randomisation), so the
hash function of the running process enters the model as the parameter `h`. -/
def fingerprint (h : String → Int) (path mtimeStr : String) : String :=
  toString (h (path ++ mtimeStr))

/-- Models `PDFProcessor.get_cache_path`: `os.path.join("ocr_cache", f"{pdf_hash}.json")`. -/
def get_cache_path (h : String → Int) (path mtimeStr : String) : String :=
  "ocr_cache" ++ "/" ++ fingerprint h path mtimeStr ++ ".json"

/-- A JSON value, the codomain of `json.dump` / domain of `json.load`. -/
inductive JVal where
  | jstr : String → JVal
  | jnum : Rat → JVal
  | jarr : List JVal → JVal
  | jobj : List (String × JVal) → JVal

/-- The string a Python dict key turns into when `json.dump` writes it as a
JSON object key: `int` keys are rendered in decimal, `str` keys kept. -/
def keyStr : PyKey → String
  | PyKey.pint n => toString n
  | PyKey.pstr s => s

/-- The key actually present in a dict read back by `json.load`: always a
string, since JSON object keys are strings. -/
def stringifyKey : PyKey → PyKey
  | PyKey.pint n => PyKey.pstr (toString n)
  | PyKey.pstr s => PyKey.pstr s

/-- The `locations` dict as it comes back from a JSON round trip: every key
(page number and word ordinal) replaced by its string form. -/
def stringifyLocations (wl : WordLocations) : WordLocations :=
  wl.map (fun kv => (stringifyKey kv.1, kv.2.map (fun kv2 => (stringifyKey kv2.1, kv2.2))))

/-- Image under `json.dump` of a bounding box (a 4-tuple becomes a JSON array). -/
def encodeBox (b : Box) : JVal :=
  JVal.jarr [JVal.jnum b.1, JVal.jnum b.2.1, JVal.jnum b.2.2.1, JVal.jnum b.2.2.2]

/-- Image under `json.dump` of one page's locations dict. -/
def encodePageLocs (pl : PageLocations) : JVal :=
  JVal.jobj (pl.map (fun kv => (keyStr kv.1, encodeBox kv.2)))

/-- Image under `json.dump` of the `locations` dict. -/
def encodeLocations (wl : WordLocations) : JVal :=
  JVal.jobj (wl.map (fun kv => (keyStr kv.1, encodePageLocs kv.2)))

/-- Models `json.dump({'texts': self.page_texts, 'locations': self.word_locations}, f)`:
the JSON text written by the cache-save step of `process_pages`. -/
def encodeCache (texts : List String) (locs : WordLocations) : JVal :=
  JVal.jobj [("texts", JVal.jarr (texts.map JVal.jstr)), ("locations", encodeLocations locs)]

/-- Decode each element of a list, failing if any element fails. -/
def mapOption (f : α → Option β) : List α → Option (List β)
  | [] => some []
  | x :: rest =>
    match f x, mapOption f rest with
    | some y, some ys => some (y :: ys)
    | _, _ => none

/-- A JSON string read back by `json.load`. -/
def decodeStr : JVal → Option String
  | JVal.jstr s => some s
  | _ => none

/-- A JSON number read back by `json.load`. -/
def decodeNum : JVal → Option Rat
  | JVal.jnum q => some q
  | _ => none

/-- A bounding box read back from its 4-element JSON array. -/
def decodeBox : JVal → Option Box
  | JVal.jarr [a, b, c, d] =>
    match decodeNum a, decodeNum b, decodeNum c, decodeNum d with
    | some x0, some y0, some x1, some y1 => some (x0, y0, x1, y1)
    | _, _, _, _ => none
  | _ => none

/-- Value of `cached_data['texts']` as read back by `json.load`: a list of strings. -/
def decodeTexts : JVal → Option (List String)
  | JVal.jarr l => mapOption decodeStr l
  | _ => none

/-- One page's locations dict as read back by `json.load`: object keys are
strings, so every key comes back as `PyKey.pstr`. -/
def decodePageLocs : JVal → Option PageLocations
  | JVal.jobj fields => mapOption (fun kv =>
      match decodeBox kv.2 with
      | some b => some (PyKey.pstr kv.1, b)
      | none => none) fields
  | _ => none

/-- Value of `cached_data['locations']` as read back by `json.load`. -/
def decodeLocations : JVal → Option WordLocations
  | JVal.jobj fields => mapOption (fun kv =>
      match decodePageLocs kv.2 with
      | some pl => some (PyKey.pstr kv.1, pl)
      | none => none) fields
  | _ => none

/-- The persisted `(texts, locations)` pair as reconstructed by `json.load`
plus the two key reads in `load_pdf`. -/
structure CachedData where
  texts : List String
  locations : WordLocations
deriving DecidableEq, Repr

/-- Models `json.load(f)` followed by `cached_data['texts']` / `cached_data['locations']`
on a cache file; a missing key or malformed value yields `none`, which in
`load_pdf` surfaces as the exception path. -/
def decodeCache (j : JVal) : Option CachedData :=
  match j with
  | JVal.jobj fields =>
    match dictLookup "texts" fields, dictLookup "locations" fields with
    | some t, some l =>
      match decodeTexts t, decodeLocations l with
      | some texts, some locs => some { texts := texts, locations := locs }
      | _, _ => none
    | _, _ => none
  | _ => none

/-- Models `PDFProcessor.load_pdf`.  `openResult` is the outcome of
`fitz.open(pdf_path)`; `cacheFile` is `none` when no cache file exists for the
fingerprint, and otherwise carries the outcome of `json.load` on it.  The
single `try/except` covers both: any exception emits a status message and
returns `False`, leaving `page_texts`/`word_locations` as they were. -/
def load_pdf (openResult : Except String Unit) (cacheFile : Option (Except String CachedData))
    (st : DocState) : DocState × Bool :=
  match openResult with
  | Except.error _ => (st, false)
  | Except.ok _ =>
    match cacheFile with
    | some (Except.ok d) => ({ page_texts := d.texts, word_locations := d.locations }, true)
    | some (Except.error _) => (st, false)
    | none => ({ page_texts := [], word_locations := [] }, true)

/-! ### Spec-side notions used to state the claims -/

/-- Claim-side notion for C6: the offsets of every case-insensitive literal
occurrence of the keyword in a page text, overlapping ones included. -/
def allOccurrences (kw t : String) : List Nat :=
  (List.range (t.data.length + 1)).filter (fun i => isMatch kw.data (t.data.drop i))

/-- Claim-side context for C7, following the claim's words: the substring of
the page text from max(0, s - 50) to min(pageLen, s + len kw + 50) with exactly
the matched span (starting at offset s, of the keyword's length) wrapped in
emphasis markers, the whole framed by leading and trailing ellipsis markers. -/
def specContextMatchSpan (kw t : String) (s : Nat) : String :=
  let lo := s - 50
  let hi := min t.length (s + kw.length + 50)
  let window := (t.data.take hi).drop lo
  "..." ++ String.mk (window.take (s - lo) ++ '*' :: '*' ::
      ((window.drop (s - lo)).take kw.length ++ '*' :: '*' ::
        window.drop (s - lo + kw.length))) ++ "..."

/-- Claim-side ordering for C6: by page number ascending, then by match start
offset ascending within a page. -/
def SearchOrder (a b : SearchResult) : Prop :=
  a.page < b.page ∨ (a.page = b.page ∧ a.position < b.position)

/-- The progress payload of an event, if it is a progress notification. -/
def progressOf : Event → Option (Nat × Nat)
  | Event.progress a b => some (a, b)
  | Event.status _ => none

/-- The progress notifications `(i + 1, total)` for the successful pages among
`pages`, in page order, starting at page index `i`. -/
def progressList (total : Nat) : Nat → List PageOutcome → List (Nat × Nat)
  | _, [] => []
  | i, Except.ok _ :: rest => (i + 1, total) :: progressList total (i + 1) rest
  | i, Except.error _ :: rest => progressList total (i + 1) rest

/-! ### Lemmas about the match scan -/

theorem scanAux_mem_le (kw : List Char) :
    ∀ (s : List Char) (i skip x : Nat), x ∈ scanAux kw s i skip → i ≤ x := by
  intro s
  induction s with
  | nil =>
    intro i skip x hx
    simp only [scanAux] at hx
    split at hx
    · simp only [List.mem_singleton] at hx
      omega
    · simp at hx
  | cons c rest ih =>
    intro i skip x hx
    cases skip with
    | succ n =>
      have := ih (i + 1) n x hx
      omega
    | zero =>
      simp only [scanAux] at hx
      split at hx
      · split at hx
        · rcases List.mem_cons.mp hx with h | h
          · omega
          · have := ih (i + 1) 0 x h
            omega
        · rcases List.mem_cons.mp hx with h | h
          · omega
          · have := ih (i + 1) (kw.length - 1) x h
            omega
      · have := ih (i + 1) 0 x hx
        omega

theorem scanAux_pairwise (kw : List Char) :
    ∀ (s : List Char) (i skip : Nat), (scanAux kw s i skip).Pairwise (· < ·) := by
  intro s
  induction s with
  | nil =>
    intro i skip
    simp only [scanAux]
    split <;> simp
  | cons c rest ih =>
    intro i skip
    cases skip with
    | succ n => exact ih (i + 1) n
    | zero =>
      simp only [scanAux]
      split
      · split
        · refine List.pairwise_cons.mpr ⟨?_, ih (i + 1) 0⟩
          intro b hb
          have := scanAux_mem_le kw rest (i + 1) 0 b hb
          omega
        · refine List.pairwise_cons.mpr ⟨?_, ih (i + 1) (kw.length - 1)⟩
          intro b hb
          have := scanAux_mem_le kw rest (i + 1) (kw.length - 1) b hb
          omega
      · exact ih (i + 1) 0

theorem scanAux_mem_bound (kw : List Char) :
    ∀ (s : List Char) (i skip x : Nat), x ∈ scanAux kw s i skip →
      ∃ d, x = i + d ∧ d ≤ s.length ∧ isMatch kw (s.drop d) = true := by
  intro s
  induction s with
  | nil =>
    intro i skip x hx
    simp only [scanAux] at hx
    split at hx
    case isTrue hkw =>
      simp only [List.mem_singleton] at hx
      refine ⟨0, by omega, by simp, ?_⟩
      have : kw = [] := List.isEmpty_iff.mp hkw
      subst this
      rfl
    case isFalse => simp at hx
  | cons c rest ih =>
    intro i skip x hx
    cases skip with
    | succ n =>
      obtain ⟨d, hd, hdl, hm⟩ := ih (i + 1) n x hx
      refine ⟨d + 1, by omega, by simp; omega, ?_⟩
      rwa [List.drop_succ_cons]
    | zero =>
      simp only [scanAux] at hx
      split at hx
      case isTrue hmatch =>
        split at hx
        · rcases List.mem_cons.mp hx with h | h
          · subst h
            exact ⟨0, by omega, by simp, hmatch⟩
          · obtain ⟨d, hd, hdl, hm⟩ := ih (i + 1) 0 x h
            refine ⟨d + 1, by omega, by simp; omega, ?_⟩
            rwa [List.drop_succ_cons]
        · rcases List.mem_cons.mp hx with h | h
          · subst h
            exact ⟨0, by omega, by simp, hmatch⟩
          · obtain ⟨d, hd, hdl, hm⟩ := ih (i + 1) (kw.length - 1) x h
            refine ⟨d + 1, by omega, by simp; omega, ?_⟩
            rwa [List.drop_succ_cons]
      case isFalse =>
        obtain ⟨d, hd, hdl, hm⟩ := ih (i + 1) 0 x hx
        refine ⟨d + 1, by omega, by simp; omega, ?_⟩
        rwa [List.drop_succ_cons]

theorem scanAux_empty_length :
    ∀ (s : List Char) (i : Nat), (scanAux [] s i 0).length = s.length + 1 := by
  intro s
  induction s with
  | nil => intro i; rfl
  | cons c rest ih =>
    intro i
    have hm : isMatch [] (c :: rest) = true := rfl
    simp only [scanAux, hm, if_true, List.isEmpty_nil, List.length_cons]
    rw [ih (i + 1)]

/-! ### Structural lemmas about `search_text` -/

theorem mem_search_from (kw : String) (wl : WordLocations) :
    ∀ (texts : List String) (n : Nat) (r : SearchResult),
      r ∈ ((List.enumFrom n texts).map (fun p => searchPage kw wl p.1 p.2)).flatten →
      ∃ j t, texts[j]? = some t ∧ r ∈ searchPage kw wl (n + j) t := by
  intro texts
  induction texts with
  | nil =>
    intro n r hr
    simp [List.enumFrom] at hr
  | cons t ts ih =>
    intro n r hr
    simp only [List.enumFrom_cons, List.map_cons, List.flatten_cons] at hr
    rcases List.mem_append.mp hr with h | h
    · exact ⟨0, t, by simp, h⟩
    · obtain ⟨j, t', hget, hmem⟩ := ih (n + 1) r h
      refine ⟨j + 1, t', by simpa using hget, ?_⟩
      have : n + 1 + j = n + (j + 1) := by omega
      rwa [this] at hmem

theorem search_map_pagepos (kw : String) (wl : WordLocations) (texts : List String) (n : Nat) :
    (((List.enumFrom n texts).map (fun p => searchPage kw wl p.1 p.2)).flatten).map
        (fun r => (r.page, r.position))
      = ((List.enumFrom n texts).map
          (fun p => (findMatches kw p.2).map (fun s => (p.1, s)))).flatten := by
  rw [List.map_flatten, List.map_map]
  congr 1
  apply List.map_congr_left
  intro p _
  show ((findMatches kw p.2).map (mkResult kw wl p.1 p.2)).map (fun r => (r.page, r.position))
      = (findMatches kw p.2).map (fun s => (p.1, s))
  rw [List.map_map]
  rfl

theorem search_pairwise_from (kw : String) (wl : WordLocations) :
    ∀ (texts : List String) (n : Nat),
      (((List.enumFrom n texts).map (fun p => searchPage kw wl p.1 p.2)).flatten).Pairwise
        SearchOrder := by
  intro texts
  induction texts with
  | nil =>
    intro n
    simp [List.enumFrom]
  | cons t ts ih =>
    intro n
    simp only [List.enumFrom_cons, List.map_cons, List.flatten_cons]
    rw [List.pairwise_append]
    refine ⟨?_, ih (n + 1), ?_⟩
    · exact List.Pairwise.map (mkResult kw wl n t)
        (fun a b hab => Or.inr ⟨rfl, hab⟩) (scanAux_pairwise kw.data t.data 0 0)
    · intro a ha b hb
      obtain ⟨s, _, rfl⟩ := List.mem_map.mp ha
      obtain ⟨j, t', _, hb'⟩ := mem_search_from kw wl ts (n + 1) b hb
      obtain ⟨s', _, rfl⟩ := List.mem_map.mp hb'
      exact Or.inl (show n < n + 1 + j by omega)

/-! ### Lemmas about the cache JSON round trip -/

theorem stringifyKey_eq_pstr (k : PyKey) : stringifyKey k = PyKey.pstr (keyStr k) := by
  cases k <;> rfl

theorem mapOption_decodeStr (texts : List String) :
    mapOption decodeStr (texts.map JVal.jstr) = some texts := by
  induction texts with
  | nil => rfl
  | cons t ts ih => simp [mapOption, decodeStr, ih]

theorem decodeBox_encodeBox (b : Box) : decodeBox (encodeBox b) = some b := by
  obtain ⟨x0, y0, x1, y1⟩ := b
  rfl

theorem decodePageLocs_encodePageLocs (pl : PageLocations) :
    decodePageLocs (encodePageLocs pl) = some (pl.map (fun kv => (stringifyKey kv.1, kv.2))) := by
  induction pl with
  | nil => rfl
  | cons kv rest ih =>
    obtain ⟨k, b⟩ := kv
    simp only [encodePageLocs, decodePageLocs, List.map_cons, stringifyKey_eq_pstr] at ih ⊢
    simp [mapOption, decodeBox_encodeBox, ih]

theorem decodeLocations_encodeLocations (wl : WordLocations) :
    decodeLocations (encodeLocations wl) = some (stringifyLocations wl) := by
  induction wl with
  | nil => rfl
  | cons kv rest ih =>
    obtain ⟨k, pl⟩ := kv
    simp only [encodeLocations, decodeLocations, stringifyLocations, List.map_cons,
      stringifyKey_eq_pstr] at ih ⊢
    simp [mapOption, decodePageLocs_encodePageLocs, ih, stringifyKey_eq_pstr]

theorem cache_roundtrip (texts : List String) (locs : WordLocations) :
    decodeCache (encodeCache texts locs)
      = some { texts := texts, locations := stringifyLocations locs } := by
  have h1 : dictLookup "texts"
      [("texts", JVal.jarr (texts.map JVal.jstr)), ("locations", encodeLocations locs)]
      = some (JVal.jarr (texts.map JVal.jstr)) := by
    simp [dictLookup]
  have h2 : dictLookup "locations"
      [("texts", JVal.jarr (texts.map JVal.jstr)), ("locations", encodeLocations locs)]
      = some (encodeLocations locs) := by
    rw [dictLookup, if_neg (by decide), dictLookup, if_pos rfl]
  simp [decodeCache, encodeCache, h1, h2, decodeTexts, mapOption_decodeStr,
    decodeLocations_encodeLocations]

theorem dictLookup_pint_stringify (p : Int) (wl : WordLocations) :
    dictLookup (PyKey.pint p) (stringifyLocations wl) = none := by
  induction wl with
  | nil => rfl
  | cons kv rest ih =>
    obtain ⟨k, pls⟩ := kv
    have hne : ¬(PyKey.pint p = stringifyKey k) := by
      cases k <;> simp [stringifyKey]
    simp only [stringifyLocations, List.map_cons, dictLookup] at ih ⊢
    rw [if_neg hne]
    exact ih

/-! ### Lemmas about `process_pages` -/

theorem processPagesFrom_filterMap (total : Nat) (pages : List PageOutcome) :
    ∀ (i : Nat) (st : ProcState),
      (processPagesFrom total i pages st).events.filterMap progressOf
        = st.events.filterMap progressOf ++ progressList total i pages := by
  induction pages with
  | nil =>
    intro i st
    simp [processPagesFrom, progressList]
  | cons outcome rest ih =>
    intro i st
    cases outcome with
    | ok r =>
      simp only [processPagesFrom, stepPage, progressList]
      rw [ih]
      simp [List.filterMap_append, progressOf]
    | error e =>
      simp only [processPagesFrom, stepPage, progressList]
      rw [ih]
      simp [List.filterMap_append, progressOf]

/-! ### Claim C1 -/

/-- Claim C1 (code-bug evaluation): on a two-page document whose first page
fails (its rasterise/OCR/decode step raised) and whose second page succeeds
with an empty OCR result, `process_pages` produces a Page Text sequence of
length 1, not 2.  The `except` branch emits a status message and `continue`s
without appending anything, so the failed page contributes nothing — not the
empty string the claim requires — later pages shift down, and `word_locations`
keeps the original page number 1 as its key, desynchronised from `page_texts`. -/
theorem C1_failed_page_dropped :
    (processPages ([Except.error "boom", Except.ok none] : List PageOutcome)).page_texts = [""]
      ∧ (processPages ([Except.error "boom", Except.ok none] : List PageOutcome)).page_texts.length
          ≠ 2
      ∧ (processPages ([Except.error "boom", Except.ok none] : List PageOutcome)).word_locations
          = [(PyKey.pint 1, [])] := by
  refine ⟨?_, ?_, ?_⟩ <;> decide

/-! ### Claim C2 -/

/-- Claim C2, counterexample: putting the well-formed pair (T, L) with
T = ["pg"] and L = {0: {0: (1, 2, 3, 4)}} through the cache (`json.dump` then
`json.load`) does not return (T, L) unchanged: the integer keys of L come back
as the JSON object key strings "0". -/
theorem C2_counterexample :
    decodeCache (encodeCache ["pg"] [(PyKey.pint 0, [(PyKey.pint 0, ((1 : Rat), 2, 3, 4))])])
      ≠ some { texts := ["pg"],
               locations := [(PyKey.pint 0, [(PyKey.pint 0, ((1 : Rat), 2, 3, 4))])] } := by
  decide

/-- Claim C2, amended: a put of (T, L) under a fingerprint followed by a get of
the same fingerprint returns T unchanged together with L in which every dict
key (page number and word ordinal) has been replaced by its decimal string
form, because JSON object keys are strings. -/
theorem C2_roundtrip_stringifies_keys (texts : List String) (locs : WordLocations) :
    decodeCache (encodeCache texts locs)
      = some { texts := texts, locations := stringifyLocations locs } :=
  cache_roundtrip texts locs

/-! ### Claim C3 -/

/-- Claim C3, counterexample: when the cache file for the document's
fingerprint exists but its content fails to deserialize (`json.load` raises),
`load_pdf` does not succeed: it returns `False`, failing the caller instead of
treating the entry as a miss and proceeding as a fresh run. -/
theorem C3_counterexample :
    (load_pdf (Except.ok ()) (some (Except.error "Expecting value"))
        { page_texts := ["stale"], word_locations := [] }).2 ≠ true := by
  decide

/-- Claim C3, amended: a persisted cache entry whose content fails to
deserialize makes `load_pdf` catch the exception, emit a status message, and
return failure (`False`), leaving the in-memory state unchanged; the caller is
not crashed, but the load reports failure rather than proceeding as a fresh
run. -/
theorem C3_corrupt_cache_returns_failure (st : DocState) (e : String) :
    load_pdf (Except.ok ()) (some (Except.error e)) st = (st, false) :=
  rfl

/-! ### Claim C4 -/

/-- Claim C4, counterexample: on a single-page document with page text "ab",
searching with the empty keyword returns three results — a zero-width match at
every character position — not the empty result sequence. -/
theorem C4_counterexample :
    (search_text { page_texts := ["ab"], word_locations := [] } "").length = 3
      ∧ (search_text { page_texts := ["ab"], word_locations := [] } "") ≠ [] :=
  ⟨by decide, by decide⟩

/-- Claim C4, amended: searching with the empty keyword does not fail, but it
does not return the empty sequence either: `re.finditer` with an empty pattern
matches at every character position, so each page of length L contributes
exactly L + 1 results. -/
theorem C4_empty_keyword_match_count (st : DocState) :
    (search_text st "").length = (st.page_texts.map (fun t => t.length + 1)).sum := by
  unfold search_text
  rw [List.length_flatten, List.map_map]
  have h : ∀ p ∈ List.enumFrom 1 st.page_texts,
      (List.length ∘ fun p => searchPage "" st.word_locations p.1 p.2) p
        = ((fun t => t.length + 1) ∘ Prod.snd) p := by
    intro p _
    show (searchPage "" st.word_locations p.1 p.2).length = p.2.length + 1
    unfold searchPage findMatches
    rw [List.length_map]
    have hd : ("" : String).data = [] := rfl
    rw [hd, scanAux_empty_length]
    exact rfl
  rw [List.map_congr_left h, ← List.map_map, List.enumFrom_map_snd]

/-! ### Claim C5 -/

/-- Claim C5 (code-bug evaluation): the fingerprint is `str(hash(path +
str(mtime)))`, and Python's builtin string hash is salted per process; two
runs whose builtin hashes differ on the same input therefore produce
different fingerprints for the same (path, mtime) pair, so the fingerprint is
not a function of (path, mtime) alone across process restarts. -/
theorem C5_fingerprint_depends_on_hash_seed :
    fingerprint (fun _ => 0) "a.pdf" "100.0" ≠ fingerprint (fun _ => 1) "a.pdf" "100.0" := by
  decide

/-! ### Claim C6 -/

/-- Claim C6, counterexample: with page text "aaa" and keyword "aa" there are
two case-insensitive literal occurrences, at offsets 0 and 1, but
`search_text` returns only one result, because `re.finditer` yields
non-overlapping matches. -/
theorem C6_counterexample :
    (search_text { page_texts := ["aaa"], word_locations := [] } "aa").length = 1
      ∧ (allOccurrences "aa" "aaa").length = 2 :=
  ⟨by decide, by decide⟩

/-- Claim C6, amended: search returns exactly one result per occurrence found
by a left-to-right, non-overlapping, case-insensitive literal scan of each
page text (pattern metacharacters are matched literally; an occurrence
overlapping an earlier match is skipped), and the result sequence is ordered
by 1-based page number ascending and, within a page, by ascending match start
offset. -/
theorem C6_scan_match_semantics (st : DocState) (kw : String) :
    (search_text st kw).map (fun r => (r.page, r.position))
        = ((List.enumFrom 1 st.page_texts).map
            (fun p => (findMatches kw p.2).map (fun s => (p.1, s)))).flatten
      ∧ (search_text st kw).Pairwise SearchOrder :=
  ⟨search_map_pagepos kw st.word_locations st.page_texts 1,
   search_pairwise_from kw st.word_locations st.page_texts 1⟩

/-! ### Claim C7 -/

/-- Claim C7, counterexample: with keyword a^26 on the page text a^78, the
match at offset 52 has window [2, 78); `re.sub` rescans that window fresh, so
the emphasis groups land at window offsets [0, 26) and [26, 52), while the
matched span occupies window offsets [50, 76) — its last 24 characters stay
outside every emphasis marker.  The produced context therefore differs from
the claim's context, which wraps exactly the matched span. -/
theorem C7_counterexample :
    ((search_text { page_texts := [String.mk (List.replicate 78 'a')], word_locations := [] }
          (String.mk (List.replicate 26 'a'))).map (fun r => (r.position, r.context)))[2]?
        = some (52,
            "..." ++ "**" ++ String.mk (List.replicate 26 'a') ++ "**"
              ++ "**" ++ String.mk (List.replicate 26 'a') ++ "**"
              ++ String.mk (List.replicate 24 'a') ++ "...")
      ∧ ("..." ++ "**" ++ String.mk (List.replicate 26 'a') ++ "**"
              ++ "**" ++ String.mk (List.replicate 26 'a') ++ "**"
              ++ String.mk (List.replicate 24 'a') ++ "...")
          ≠ specContextMatchSpan (String.mk (List.replicate 26 'a'))
              (String.mk (List.replicate 78 'a')) 52 :=
  ⟨by decide, by decide⟩

/-- Claim C7, amended: every result of `search_text` comes from a page text t
of the document with the match lying fully inside t, and its context is
exactly the substring of t from max(0, s - 50) (natural subtraction clamps at
0, as the source's `max(0, ...)` does) to min(len t, s + len kw + 50) — a
window always clipped to the page text's bounds, never indexing out of range,
including matches at the very start or very end — with emphasis applied by a
fresh left-to-right non-overlapping case-insensitive rescan of that window
(each rescan occurrence wrapped in `**` markers, which coincides with the
page-level matched span except when a self-overlapping keyword makes the
rescan misalign), and the whole framed by leading and trailing ellipsis
markers. -/
theorem C7_context_window_clipped (st : DocState) (kw : String) (r : SearchResult)
    (h : r ∈ search_text st kw) :
    ∃ t, st.page_texts[r.page - 1]? = some t ∧
      r.position + kw.length ≤ t.length ∧
      r.position - 50 ≤ min t.length (r.position + kw.length + 50) ∧
      min t.length (r.position + kw.length + 50) ≤ t.length ∧
      r.context = "..." ++ String.mk (emphAux kw.data
          ((t.data.take (min t.length (r.position + kw.length + 50))).drop (r.position - 50)) 0)
        ++ "..." := by
  obtain ⟨j, t, hget, hmem⟩ := mem_search_from kw st.word_locations st.page_texts 1 r h
  obtain ⟨s, hs, rfl⟩ := List.mem_map.mp hmem
  obtain ⟨d, hd, hdl, hm⟩ := scanAux_mem_bound kw.data t.data 0 0 s hs
  simp only [isMatch, Bool.and_eq_true, decide_eq_true_eq, beq_iff_eq] at hm
  have hlen := hm.1
  rw [List.length_drop] at hlen
  refine ⟨t, ?_, ?_, ?_, ?_, ?_⟩
  · have e : (1 + j) - 1 = j := by omega
    show st.page_texts[(1 + j) - 1]? = some t
    rw [e]
    exact hget
  · show s + kw.data.length ≤ t.data.length
    omega
  · show s - 50 ≤ min t.data.length (s + kw.data.length + 50)
    omega
  · show min t.data.length (s + kw.data.length + 50) ≤ t.data.length
    omega
  · rfl

/-- Witness for C7 at a concrete input: a one-page document with page text
"hi" and keyword "hi"; the match at offset 0 sits at the very start of the
page, the window is clipped to the whole page, and the context is
"...**hi**...". -/
theorem C7_context_window_clipped_witness :
    ∃ t, (DocState.mk ["hi"] []).page_texts[(1 : Nat) - 1]? = some t ∧
      0 + ("hi" : String).length ≤ t.length ∧
      0 - 50 ≤ min t.length (0 + ("hi" : String).length + 50) ∧
      min t.length (0 + ("hi" : String).length + 50) ≤ t.length ∧
      "...**hi**..." = "..." ++ String.mk (emphAux ("hi" : String).data
          ((t.data.take (min t.length (0 + ("hi" : String).length + 50))).drop (0 - 50)) 0)
        ++ "..." :=
  C7_context_window_clipped (DocState.mk ["hi"] []) "hi"
    { page := 1, context := "...**hi**...", position := 0, bbox := (0, 0, 0, 0) }
    (by decide)

/-! ### Claim C8 -/

/-- Claim C8: every result's bounding box is obtained by counting the
whitespace-delimited tokens of the page text before the match start, looking
that ordinal up as an int key in the page's entry of `word_locations` (itself
fetched under the int key `page - 1`), and falling back to the zero-rectangle
sentinel (0, 0, 0, 0) whenever the page entry or the ordinal is absent, rather
than failing. -/
theorem C8_bbox_resolution (st : DocState) (kw : String) (r : SearchResult)
    (h : r ∈ search_text st kw) :
    ∃ t, st.page_texts[r.page - 1]? = some t ∧
      r.bbox = lookupBbox st.word_locations (Int.ofNat (r.page - 1))
          (Int.ofNat (countTokens (t.data.take r.position))) ∧
      (dictLookup (PyKey.pint (Int.ofNat (r.page - 1))) st.word_locations = none →
        r.bbox = (0, 0, 0, 0)) ∧
      (dictLookup (PyKey.pint (Int.ofNat (countTokens (t.data.take r.position))))
          ((dictLookup (PyKey.pint (Int.ofNat (r.page - 1))) st.word_locations).getD []) = none →
        r.bbox = (0, 0, 0, 0)) := by
  obtain ⟨j, t, hget, hmem⟩ := mem_search_from kw st.word_locations st.page_texts 1 r h
  obtain ⟨s, hs, rfl⟩ := List.mem_map.mp hmem
  have e : (1 + j) - 1 = j := by omega
  refine ⟨t, ?_, rfl, ?_, ?_⟩
  · show st.page_texts[(1 + j) - 1]? = some t
    rw [e]
    exact hget
  · intro hnone
    show lookupBbox st.word_locations (Int.ofNat ((1 + j) - 1))
        (Int.ofNat (countTokens (t.data.take s))) = (0, 0, 0, 0)
    unfold lookupBbox
    rw [show dictLookup (PyKey.pint (Int.ofNat ((1 + j) - 1))) st.word_locations = none from hnone]
    rfl
  · intro hnone
    show lookupBbox st.word_locations (Int.ofNat ((1 + j) - 1))
        (Int.ofNat (countTokens (t.data.take s))) = (0, 0, 0, 0)
    unfold lookupBbox
    rw [show dictLookup (PyKey.pint (Int.ofNat (countTokens (t.data.take s))))
        ((dictLookup (PyKey.pint (Int.ofNat ((1 + j) - 1))) st.word_locations).getD [])
        = none from hnone]
    rfl

/-- Witness for C8 at a concrete input: one page "hello world" whose location
index holds the box (1, 2, 3, 4) under ordinal 1 of page 0; searching "world"
counts one token ("hello") before offset 6 and resolves ordinal 1 to that
box. -/
theorem C8_bbox_resolution_witness :
    ∃ t, (DocState.mk ["hello world"]
          [(PyKey.pint 0, [(PyKey.pint 1, ((1 : Rat), 2, 3, 4))])]).page_texts[(1 : Nat) - 1]?
        = some t ∧
      (((1 : Rat), 2, 3, 4) : Box) = lookupBbox
          [(PyKey.pint 0, [(PyKey.pint 1, ((1 : Rat), 2, 3, 4))])]
          (Int.ofNat ((1 : Nat) - 1)) (Int.ofNat (countTokens (t.data.take 6))) ∧
      (dictLookup (PyKey.pint (Int.ofNat ((1 : Nat) - 1)))
          ([(PyKey.pint 0, [(PyKey.pint 1, ((1 : Rat), 2, 3, 4))])] : WordLocations) = none →
        (((1 : Rat), 2, 3, 4) : Box) = (0, 0, 0, 0)) ∧
      (dictLookup (PyKey.pint (Int.ofNat (countTokens (t.data.take 6))))
          ((dictLookup (PyKey.pint (Int.ofNat ((1 : Nat) - 1)))
            ([(PyKey.pint 0, [(PyKey.pint 1, ((1 : Rat), 2, 3, 4))])] : WordLocations)).getD [])
          = none →
        (((1 : Rat), 2, 3, 4) : Box) = (0, 0, 0, 0)) :=
  C8_bbox_resolution
    (DocState.mk ["hello world"] [(PyKey.pint 0, [(PyKey.pint 1, ((1 : Rat), 2, 3, 4))])])
    "world"
    { page := 1, context := "...hello **world**...", position := 6, bbox := (1, 2, 3, 4) }
    (by decide)

/-! ### Claim C9 -/

/-- Claim C9, counterexample: for a one-page document whose only page fails,
no progress notification is emitted at all, although the claim requires the
progress notification (1, 1) after that page finishes. -/
theorem C9_counterexample :
    (1, 1) ∉ (processPages ([Except.error "boom"] : List PageOutcome)).events.filterMap
        progressOf := by
  decide

/-- Claim C9, amended: during `process_pages`, the progress notification
(i + 1, N) is emitted after page i exactly when page i succeeds, and the
progress notifications appear in page order; a failed page emits a status
notification instead of a progress one. -/
theorem C9_progress_only_on_success (pages : List PageOutcome) :
    (processPages pages).events.filterMap progressOf = progressList pages.length 0 pages := by
  unfold processPages
  rw [processPagesFrom_filterMap]
  rfl

/-! ### Claim C10 -/

/-- Claim C10 (implicit): after the document index is restored from a cache
hit, `word_locations` is keyed by JSON string page numbers, while
`search_text` fetches pages with the int key `page_num - 1`; the page lookup
therefore misses for every page, and every returned result carries the
sentinel bounding box (0, 0, 0, 0), even for words whose boxes were recorded
at indexing time. -/
theorem C10_cache_restore_sentinel_bbox (texts : List String) (locs : WordLocations)
    (cached : CachedData) (hdec : decodeCache (encodeCache texts locs) = some cached)
    (kw : String) (r : SearchResult)
    (hr : r ∈ search_text { page_texts := cached.texts, word_locations := cached.locations } kw) :
    r.bbox = (0, 0, 0, 0) := by
  have hcache := cache_roundtrip texts locs
  rw [hdec] at hcache
  have hloc : cached.locations = stringifyLocations locs := by
    have h := Option.some.inj hcache
    rw [h]
  obtain ⟨j, t, hget, hmem⟩ := mem_search_from kw cached.locations cached.texts 1 r hr
  obtain ⟨s, hs, rfl⟩ := List.mem_map.mp hmem
  show lookupBbox cached.locations (Int.ofNat ((1 + j) - 1))
      (Int.ofNat (countTokens (t.data.take s))) = (0, 0, 0, 0)
  rw [hloc]
  unfold lookupBbox
  rw [dictLookup_pint_stringify]
  rfl

/-- Witness for C10 at a concrete input: the page "hi" was indexed with the
real box (5, 6, 7, 8) for word 0 of page 0; after the cache round trip the
search result for "hi" nevertheless carries the sentinel box. -/
theorem C10_cache_restore_sentinel_bbox_witness :
    (SearchResult.mk 1 "...**hi**..." 0 (0, 0, 0, 0)).bbox = ((0 : Rat), 0, 0, 0) :=
  C10_cache_restore_sentinel_bbox ["hi"]
    [(PyKey.pint 0, [(PyKey.pint 0, ((5 : Rat), 6, 7, 8))])]
    { texts := ["hi"], locations := [(PyKey.pstr "0", [(PyKey.pstr "0", ((5 : Rat), 6, 7, 8))])] }
    (by decide) "hi" (SearchResult.mk 1 "...**hi**..." 0 (0, 0, 0, 0)) (by decide)

end PdfSearch
